import Mathlib

/-!
Verification of the cloud-sync orchestration plugin (`cloud_sync.py`) and the
in-memory cache service (`cache.py`).

The Python code is shallowly embedded: Python dicts become insertion-ordered
association lists, the rclone configuration file becomes the ordered list of
write calls, the AES block cipher of the external `Crypto` library is a
parameter of the obfuscation routine, and external collaborators (provider
plugins, the schema framework, the rclone process, the job system) become
explicit parameters or event traces.
-/

/- ### Python dict model

A Python dict is an insertion-ordered association list with unique keys.
`dictSet` mirrors `d[k] = v` (an existing key keeps its position, a new key
is appended); `dictUpdate` mirrors `d.update(e)` / `dict(d, **e)`. -/

abbrev PyDict := List (String × String)

def dictHas (d : PyDict) (k : String) : Bool :=
  match d with
  | [] => false
  | p :: rest => if p.1 = k then true else dictHas rest k

def dictGet? (d : PyDict) (k : String) : Option String :=
  match d with
  | [] => none
  | p :: rest => if p.1 = k then some p.2 else dictGet? rest k

def dictSet (d : PyDict) (k v : String) : PyDict :=
  if dictHas d k then d.map (fun p => if p.1 = k then (k, v) else p) else d ++ [(k, v)]

def dictUpdate (d : PyDict) : PyDict → PyDict
  | [] => d
  | p :: rest => dictUpdate (dictSet d p.1 p.2) rest

def dictKeys (d : PyDict) : List String := d.map Prod.fst

/- ### Python string/path helpers used by the plugin -/

/-- Python `s.strip("/")`: remove leading and trailing slashes. -/
def pyStripSlashes (s : String) : String :=
  String.mk (((s.data.dropWhile (fun c => c == '/')).reverse.dropWhile
    (fun c => c == '/')).reverse)

/-- Python `s.lower()` restricted to the ASCII strings used for transfer modes. -/
def pyLower (s : String) : String :=
  String.mk (s.data.map Char.toLower)

/-- Split a character list on `/`. -/
def splitSlashes (l : List Char) : List String :=
  match l with
  | [] => [""]
  | c :: rest =>
    let r := splitSlashes rest
    if c = '/' then "" :: r
    else
      match r with
      | [] => [String.mk [c]]
      | s :: tail => String.mk (c :: s.data) :: tail

/-- `os.path.normpath` component processing for relative paths: drop empty
and `.` components, let `..` cancel a preceding real component. -/
def normpathComps (acc : List String) : List String → List String
  | [] => acc
  | c :: rest =>
    if c = "" ∨ c = "." then normpathComps acc rest
    else if c = ".." then
      match acc.getLast? with
      | some last => if last ≠ ".." then normpathComps acc.dropLast rest
                     else normpathComps (acc ++ [c]) rest
      | none => normpathComps (acc ++ [c]) rest
    else normpathComps (acc ++ [c]) rest

def joinSlashes (comps : List String) : String :=
  match comps with
  | [] => ""
  | [c] => c
  | c :: rest => c ++ "/" ++ joinSlashes rest

/-- `os.path.normpath` on a relative path (the only use in the plugin feeds it
`folder.strip("/") + "/.."`, which is relative). -/
def normpathRel (p : String) : String :=
  let comps := normpathComps [] (splitSlashes p.data)
  if comps = [] then "." else joinSlashes comps

/-- `os.path.basename` on a path without a trailing slash. -/
def pyBasename (p : String) : String :=
  (splitSlashes p.data).getLastD ""

/- ### Data model: provider descriptors and cloud-sync tasks

`RcloneRemote` is the provider descriptor registered in `REMOTES`.  The
plugin-supplied hooks `get_credentials_extra` / `get_task_extra` are external
provider code, modelled by the dicts they return. -/

structure RcloneRemote where
  name : String := ""
  rclone_type : String := ""
  buckets : Bool := false
  readonly : Bool := false
  task_schema : List String := []
  credentials_schema : List String := []
  credentialsExtra : PyDict := []
  taskExtra : PyDict := []
deriving DecidableEq

/-- The resolved task+credential record handed to `RcloneConfig`.  `credAttributes`
is `cloud_sync["credentials"]["attributes"]`; `taskAttributes` is
`cloud_sync["attributes"]` when the key is present. -/
structure CloudSyncData where
  direction : String := "PUSH"
  transfer_mode : String := "SYNC"
  path : String := ""
  credProvider : String := ""
  credAttributes : PyDict := []
  taskAttributes : Option PyDict := none
  encryption : Bool := false
  filename_encryption : Bool := false
  encryption_password : String := ""
  encryption_salt : String := ""

/-- One write call issued against the temporary configuration file: either a
`[name]` section header line or a `k = v` line. -/
inductive ConfigLine where
  | header (name : String)
  | kv (k v : String)
deriving DecidableEq

structure RcloneConfigTuple where
  lines : List ConfigLine
  remote_path : Option String
deriving DecidableEq

/-- Lines 44-45 of `RcloneConfig.__enter__`: the credential-side map,
`dict(credentials["attributes"], type=...)` updated with
`get_credentials_extra(...)`. -/
def credSideConfig (provider : RcloneRemote) (cs : CloudSyncData) : PyDict :=
  dictUpdate (dictSet cs.credAttributes "type" provider.rclone_type)
    provider.credentialsExtra

/-- Lines 46-47 of `RcloneConfig.__enter__`: obfuscate `config["pass"]` when
the key is present. -/
def obfuscatePass (obf : String → String) (config : PyDict) : PyDict :=
  if dictHas config "pass"
  then dictSet config "pass" (obf ((dictGet? config "pass").getD ""))
  else config

/-- Line 52 of `RcloneConfig.__enter__` applied after the credential-side
steps: the fully assembled map written under `[remote]` for a task carrying
attributes. -/
def assembledConfig (provider : RcloneRemote) (obf : String → String)
    (cs : CloudSyncData) (attrs : PyDict) : PyDict :=
  dictUpdate (obfuscatePass obf (credSideConfig provider cs))
    (dictUpdate attrs provider.taskExtra)

/-- `RcloneConfig.__enter__`.  `obf` stands for `rclone_encrypt_password`
with its per-call randomness (the concrete function is defined below as
`rclone_encrypt_password`); `provider` is `REMOTES[credentials["provider"]]`. -/
def RcloneConfig_enter (provider : RcloneRemote) (obf : String → String)
    (cs : CloudSyncData) : RcloneConfigTuple :=
  match cs.taskAttributes with
  | none => { lines := ConfigLine.header "remote" ::
                (obfuscatePass obf (credSideConfig provider cs)).map
                  (fun p => ConfigLine.kv p.1 p.2),
              remote_path := none }
  | some attrs =>
    let config := assembledConfig provider obf cs attrs
    let remote_path := "remote:" ++ pyStripSlashes
      (((dictGet? attrs "bucket").getD "") ++ "/" ++ ((dictGet? attrs "folder").getD ""))
    if cs.encryption then
      { lines := [ConfigLine.header "encrypted",
                  ConfigLine.kv "type" "crypt",
                  ConfigLine.kv "remote" remote_path,
                  ConfigLine.kv "filename_encryption"
                    (if cs.filename_encryption then "standard" else "off"),
                  ConfigLine.kv "password" (obf cs.encryption_password)] ++
                 (if cs.encryption_salt ≠ ""
                  then [ConfigLine.kv "password2" (obf cs.encryption_salt)] else []) ++
                 ConfigLine.header "remote" :: config.map (fun p => ConfigLine.kv p.1 p.2),
        remote_path := some "encrypted:/" }
    else
      { lines := ConfigLine.header "remote" :: config.map (fun p => ConfigLine.kv p.1 p.2),
        remote_path := some remote_path }

def isHeader (n : String) : ConfigLine → Bool
  | ConfigLine.header m => m = n
  | ConfigLine.kv _ _ => false

/-- The produced file contains an `[encrypted]` section. -/
def hasEncryptedSection (t : RcloneConfigTuple) : Bool :=
  t.lines.any (isHeader "encrypted")

/- ### `rclone_encrypt_password` (PasswordObfuscator)

The routine draws a fresh 16-byte IV (`Random.new().read(AES.block_size)`),
builds an AES-256-CTR cipher over the fixed key with the counter starting at
the IV read as a 128-bit big-endian integer, and emits
`urlsafe_b64encode(iv + cipher.encrypt(password.encode("utf-8")))` with the
trailing `=` padding stripped.

Bytes are `Nat` values `< 256`.  The AES block transform itself lives in the
external `Crypto` library; it is a parameter `aes : key → block → block` of
the embedding, always applied to the fixed key taken from the source. -/

/-- The fixed, publicly known obfuscation key from `rclone_encrypt_password`. -/
def rcloneFixedKey : List Nat :=
  [0x9c, 0x93, 0x5b, 0x48, 0x73, 0x0a, 0x55, 0x4d,
   0x6b, 0xfd, 0x7c, 0x63, 0xc8, 0x86, 0xa9, 0x2b,
   0xd3, 0x90, 0x19, 0x8e, 0xb8, 0x12, 0x8a, 0xfb,
   0xf4, 0xde, 0x16, 0x2b, 0x8b, 0x95, 0xf6, 0x38]

/-- `w`-byte big-endian encoding of `n`. -/
def beBytes : Nat → Nat → List Nat
  | 0, _ => []
  | w + 1, n => beBytes w (n / 256) ++ [n % 256]

/-- Big-endian value of a byte string (`int(codecs.encode(iv, "hex"), 16)`). -/
def beVal (bs : List Nat) : Nat := bs.foldl (fun a b => a * 256 + b) 0

/-- CTR keystream blocks `i, i+1, ...` (`n` of them) for a counter that wraps
at 128 bits, as produced by `Counter.new(128, initial_value=beVal iv)`. -/
def ctrBlocks (enc : List Nat → List Nat) (ivVal : Nat) (i : Nat) : Nat → List Nat
  | 0 => []
  | n + 1 => enc (beBytes 16 ((ivVal + i) % 2 ^ 128)) ++ ctrBlocks enc ivVal (i + 1) n

def ctrKeystream (enc : List Nat → List Nat) (ivVal n : Nat) : List Nat :=
  ctrBlocks enc ivVal 0 n

/-- `cipher.encrypt(msg)` in CTR mode: XOR with the keystream. -/
def aesCtrEncrypt (enc : List Nat → List Nat) (iv msg : List Nat) : List Nat :=
  List.zipWith Nat.xor msg (ctrKeystream enc (beVal iv) ((msg.length + 15) / 16))

/-- `password.encode("utf-8")` as `Nat` bytes. -/
def utf8Bytes (s : String) : List Nat :=
  (s.data.flatMap String.utf8EncodeChar).map (fun b => b.toNat)

/-- The base64url alphabet of `base64.urlsafe_b64encode`. -/
def b64Alphabet : List Char :=
  "ABCDEFGHIJKLMNOPQRSTUVWXYZabcdefghijklmnopqrstuvwxyz0123456789-_".data

def b64Char (n : Nat) : Char := b64Alphabet.getD n 'A'

def b64Index (c : Char) : Option Nat := b64Alphabet.findIdx? (fun x => x == c)

/-- Base64 encoding of a byte string into 6-bit groups, with the `=` padding
already stripped (`.rstrip("=")`): a trailing group of one byte yields two
sextets, of two bytes three sextets. -/
def encodeChunks : List Nat → List Nat
  | [] => []
  | [b0] => [b0 / 4, b0 % 4 * 16]
  | [b0, b1] => [b0 / 4, b0 % 4 * 16 + b1 / 16, b1 % 16 * 4]
  | b0 :: b1 :: b2 :: rest =>
    b0 / 4 :: (b0 % 4 * 16 + b1 / 16) :: (b1 % 16 * 4 + b2 / 64) :: b2 % 64 ::
      encodeChunks rest

/-- Base64 decoding of a sextet string back to bytes, accepting the partial
trailing groups produced by stripped padding. -/
def decodeChunks : List Nat → List Nat
  | s0 :: s1 :: s2 :: s3 :: rest =>
    (s0 * 4 + s1 / 16) :: (s1 % 16 * 16 + s2 / 4) :: (s2 % 4 * 64 + s3) :: decodeChunks rest
  | [s0, s1] => [s0 * 4 + s1 / 16]
  | [s0, s1, s2] => [s0 * 4 + s1 / 16, s1 % 16 * 16 + s2 / 4]
  | _ => []

/-- `rclone_encrypt_password` with the freshly drawn IV made explicit. -/
def rclone_encrypt_password (aes : List Nat → List Nat → List Nat)
    (iv : List Nat) (password : String) : String :=
  let encrypted := iv ++ aesCtrEncrypt (aes rcloneFixedKey) iv (utf8Bytes password)
  String.mk ((encodeChunks encrypted).map b64Char)

/-- Map token characters back to sextets. -/
def decodeIndices : List Char → Option (List Nat)
  | [] => some []
  | c :: rest =>
    match b64Index c, decodeIndices rest with
    | some s, some tail => some (s :: tail)
    | _, _ => none

/-- Base64url-decode a token (conceptually re-adding the stripped padding). -/
def decodeToken (t : String) : Option (List Nat) :=
  (decodeIndices t.data).map decodeChunks

/-- The known inversion algorithm: decode, split off the 16-byte IV, and XOR
with the keystream regenerated from the fixed key and the embedded IV. -/
def rclone_decrypt_password (aes : List Nat → List Nat → List Nat)
    (token : String) : Option (List Nat) :=
  match decodeToken token with
  | none => none
  | some bytes =>
    if bytes.length < 16 then none
    else
      let iv := bytes.take 16
      let ct := bytes.drop 16
      some (List.zipWith Nat.xor ct
        (ctrKeystream (aes rcloneFixedKey) (beVal iv) ((ct.length + 15) / 16)))

/- ### The `rclone` transfer executor -/

/-- The rclone invocation built by `rclone(job, cloud_sync)`. -/
def rcloneArgs (configPath transfer_mode direction path remotePath : String) :
    List String :=
  ["/usr/local/bin/rclone", "--config", configPath, "-v", "--stats", "1s",
   pyLower transfer_mode] ++
  (if direction = "PUSH" then [path, remotePath] else [remotePath, path])

/-- Observable steps of one `rclone(job, cloud_sync)` execution. -/
inductive RcloneEvent where
  | spawned (args : List String)
  | progressStarted
  | processWaited
  | progressAwaited
  | raisedValueError (msg : String)
  | returnedTrue
deriving DecidableEq

/-- `rclone(job, cloud_sync)`: build the config, spawn the process, start
the progress reader, wait for exit; on non-zero status await the progress
reader and raise `ValueError("rclone failed")`, otherwise return `True`.
`outputLines` is the combined stdout/stderr of the child; the progress reader
forwards it to the job log (second component of the result). -/
def rclone_run (provider : RcloneRemote) (obf : String → String)
    (cs : CloudSyncData) (configPath : String) (returncode : Int)
    (outputLines : List String) : List RcloneEvent × List String :=
  let cfg := RcloneConfig_enter provider obf cs
  let args := rcloneArgs configPath cs.transfer_mode cs.direction cs.path
    ((cfg.remote_path).getD "")
  if returncode ≠ 0 then
    ([RcloneEvent.spawned args, RcloneEvent.progressStarted, RcloneEvent.processWaited,
      RcloneEvent.progressAwaited, RcloneEvent.raisedValueError "rclone failed"],
     outputLines)
  else
    ([RcloneEvent.spawned args, RcloneEvent.progressStarted, RcloneEvent.processWaited,
      RcloneEvent.returnedTrue],
     outputLines)

/- ### Validators

`validate_attributes` delegates to the external schema framework
(`middlewared.schema Dict.clean/validate`); its outcome for a given assembled
schema is a parameter `attrVerrors`.  Validation errors are `(field, message)`
pairs; a Python `KeyError` escaping a function is `PyError.keyError`. -/

inductive PyError where
  | keyError (key : String)
deriving DecidableEq

abbrev VErrors := List (String × String)

def lookupRemote (remotes : List (String × RcloneRemote)) (p : String) :
    Option RcloneRemote :=
  match remotes with
  | [] => none
  | q :: rest => if q.1 = p then some q.2 else lookupRemote rest p

/-- `CredentialsService._validate`: guard the provider lookup, then validate
the credential attributes against the provider's credentials schema; raise
the accumulated errors if any. -/
def Credentials_validate (remotes : List (String × RcloneRemote))
    (schema_name provider : String)
    (attrVerrors : List String → VErrors) : Except VErrors Unit :=
  match lookupRemote remotes provider with
  | none => Except.error [(schema_name ++ ".provider", "Invalid provider")]
  | some prov =>
    let verrors := (attrVerrors prov.credentials_schema).map
      (fun e => (schema_name ++ ".attributes." ++ e.1, e.2))
    if verrors = [] then Except.ok () else Except.error verrors

/-- `CloudSyncService._validate`: check the encryption password, resolve the
credential, index `REMOTES` (an unknown provider escapes as a `KeyError`),
assemble the effective attribute schema, validate attributes, and run the
provider's `pre_save_task` hook only when the attributes were clean.
`preSaveErrs` are the errors that hook appends. -/
def CloudSync_validate (remotes : List (String × RcloneRemote))
    (credProvider : String) (attrVerrors : List String → VErrors)
    (preSaveErrs : VErrors) (name : String) (encryption : Bool)
    (encryption_password : String) : Except PyError VErrors :=
  let verrors := if encryption ∧ encryption_password = ""
    then [(name ++ ".encryption_password",
           "This field is required when encryption is enabled")]
    else []
  match lookupRemote remotes credProvider with
  | none => Except.error (PyError.keyError credProvider)
  | some provider =>
    let schema := (if provider.buckets then ["bucket"] else []) ++ ["folder"] ++
      provider.task_schema
    let averrs := attrVerrors schema
    let verrors := verrors ++ (if averrs = [] then preSaveErrs else [])
    Except.ok (verrors ++ averrs.map (fun e => (name ++ ".attributes." ++ e.1, e.2)))

/-- A remote entry returned by `rclone lsjson`. -/
structure LsEntry where
  Name : String
  IsDir : Bool
deriving DecidableEq

/-- Lines 288-290 of `_validate_folder`:
`os.path.normpath(os.path.join(stripped, ".."))`, with `.` replaced by the
empty folder. -/
def folderParent (stripped : String) : String :=
  let fp := normpathRel (stripped ++ "/..")
  if fp = "." then "" else fp

/-- `CloudSyncService._validate_folder`.  For `PULL` with a non-empty stripped
folder, list the folder's parent (`listDir` abstracts the `list_directory`
round trip through rclone) and check the first entry whose `Name` matches the
folder's base name; for `PUSH`, reject read-only providers. -/
def CloudSync_validate_folder (remotes : List (String × RcloneRemote))
    (credProvider : String) (listDir : String → List LsEntry)
    (name direction folder : String) : Except PyError VErrors :=
  let pullErrs :=
    if direction = "PULL" then
      let stripped := pyStripSlashes folder
      if stripped ≠ "" then
        let folder_parent := folderParent stripped
        let folder_basename := pyBasename stripped
        match (listDir folder_parent).find? (fun item => item.Name == folder_basename) with
        | some item =>
          if item.IsDir then []
          else [(name ++ ".attributes.folder", "This is not a directory")]
        | none => [(name ++ ".attributes.folder", "Directory does not exist")]
      else []
    else []
  if direction = "PUSH" then
    match lookupRemote remotes credProvider with
    | none => Except.error (PyError.keyError credProvider)
    | some provider =>
      Except.ok (pullErrs ++
        (if provider.readonly then [(name ++ ".direction", "This remote is read-only")]
         else []))
  else Except.ok pullErrs

/- ### Single-flight job lock (spec-modelled)

Modelled from the spec: the `@job(lock=..., lock_queue_size=1)` machinery of
`middlewared.service` is not under `src/`; `CloudSyncService.sync` only
declares the lock key `"cloud_sync:{id}"` and the queue bound 1.  Per the
spec, the job system keeps, per lock key, at most one running execution and a
wait queue of depth 1; a further request while the queue is full is coalesced
rather than creating another run, and a queued run starts only once the
holder finishes. -/

/-- The lock key `CloudSyncService.sync` declares for task `id`. -/
def syncLockKey (id : Nat) : String := "cloud_sync:" ++ toString id

structure LockState where
  holders : List (String × Nat)
  queues : List (String × List Nat)
deriving DecidableEq

def assocGet {α : Type} (l : List (String × α)) (k : String) : Option α :=
  match l with
  | [] => none
  | p :: rest => if p.1 = k then some p.2 else assocGet rest k

def assocSet {α : Type} (l : List (String × α)) (k : String) (v : α) :
    List (String × α) :=
  match l with
  | [] => [(k, v)]
  | p :: rest => if p.1 = k then (k, v) :: rest else p :: assocSet rest k v

def assocDel {α : Type} (l : List (String × α)) (k : String) : List (String × α) :=
  match l with
  | [] => []
  | p :: rest => if p.1 = k then assocDel rest k else p :: assocDel rest k

def initLockState : LockState := ⟨[], []⟩

def getQueue (s : LockState) (k : String) : List Nat := (assocGet s.queues k).getD []

inductive JobEvent where
  | request (key : String) (r : Nat)
  | start (key : String) (r : Nat)
  | finish (key : String) (r : Nat)
deriving DecidableEq

/-- Modelled from the spec: one scheduling step of the job lock.  `request`
always succeeds (queued, or coalesced when the depth-1 queue is full);
`start` requires the key to be free and the run to be first in the queue;
`finish` requires the run to be the current holder. -/
def lockStep (s : LockState) : JobEvent → Option LockState
  | JobEvent.request k r =>
    some (if (getQueue s k).length < 1
      then { s with queues := assocSet s.queues k (getQueue s k ++ [r]) }
      else s)
  | JobEvent.start k r =>
    if assocGet s.holders k = none ∧ (getQueue s k).head? = some r then
      some { holders := assocSet s.holders k r,
             queues := assocSet s.queues k (getQueue s k).tail }
    else none
  | JobEvent.finish k r =>
    if assocGet s.holders k = some r then
      some { s with holders := assocDel s.holders k }
    else none

def lockRun (s : LockState) : List JobEvent → Option LockState
  | [] => some s
  | e :: rest => (lockStep s e).bind (fun s' => lockRun s' rest)

/- ### `CacheService` (`cache.py`)

Entries are stored either bare (`put` without timeout) or as a
`[value, timeout]` pair; `get` checks expiry lazily via `get_timeout`,
deleting the entry and raising `KeyError` once the timeout has passed.
Instants are `Nat` (the `datetime` order is all that matters). -/

inductive CacheEntry (α : Type) where
  | plain (v : α)
  | timed (v : α) (timeout : Nat)
deriving DecidableEq

abbrev CacheState (α : Type) := List (String × CacheEntry α)

/-- `CacheService.put`. -/
def cache_put {α : Type} (c : CacheState α) (k : String) (v : α)
    (timeout : Option Nat) : CacheState α :=
  match timeout with
  | some t => assocSet c k (CacheEntry.timed v t)
  | none => assocSet c k (CacheEntry.plain v)

/-- `CacheService.has_key`: pure membership, no expiry check. -/
def cache_has_key {α : Type} (c : CacheState α) (k : String) : Bool :=
  (assocGet c k).isSome

/-- `CacheService.get` (with `get_timeout` inlined): returns the value, or
raises `KeyError` — deleting the entry first when it has expired. -/
def cache_get {α : Type} (now : Nat) (c : CacheState α) (k : String) :
    Except String α × CacheState α :=
  match assocGet c k with
  | none => (Except.error k, c)
  | some (CacheEntry.plain v) => (Except.ok v, c)
  | some (CacheEntry.timed v t) =>
    if now ≥ t then (Except.error ("Key has expired at " ++ toString t), assocDel c k)
    else (Except.ok v, c)

/- ### Lemmas about the Python dict model -/

theorem dictHas_iff_mem (d : PyDict) (k : String) :
    dictHas d k = true ↔ k ∈ dictKeys d := by
  induction d with
  | nil => simp [dictHas, dictKeys]
  | cons p rest ih =>
    by_cases h : p.1 = k <;> simp [dictHas, dictKeys, h, ih]
    exact fun hk => (h hk.symm).elim

theorem dictGet?_eq_none_of_not_has (d : PyDict) (k : String)
    (h : dictHas d k = false) : dictGet? d k = none := by
  induction d with
  | nil => rfl
  | cons p rest ih =>
    by_cases hp : p.1 = k
    · simp [dictHas, hp] at h
    · simp [dictHas, hp] at h
      simp [dictGet?, hp, ih h]

theorem dictHas_of_dictGet?_some (d : PyDict) (k v : String)
    (h : dictGet? d k = some v) : dictHas d k = true := by
  induction d with
  | nil => simp [dictGet?] at h
  | cons p rest ih =>
    by_cases hp : p.1 = k
    · simp [dictHas, hp]
    · simp [dictGet?, hp] at h
      simp [dictHas, hp, ih h]

theorem dictGet?_mem (d : PyDict) (k v : String) (h : dictGet? d k = some v) :
    (k, v) ∈ d := by
  induction d with
  | nil => simp [dictGet?] at h
  | cons p rest ih =>
    obtain ⟨pk, pv⟩ := p
    by_cases hp : pk = k
    · simp [dictGet?, hp] at h
      simp [hp, h]
    · simp [dictGet?, hp] at h
      exact List.mem_cons_of_mem _ (ih h)

theorem dictGet?_append (d e : PyDict) (k : String) :
    dictGet? (d ++ e) k = (dictGet? d k).or (dictGet? e k) := by
  induction d with
  | nil => simp [dictGet?]
  | cons p rest ih =>
    by_cases hp : p.1 = k <;> simp [dictGet?, hp, ih]

theorem dictGet?_dictSet_self (d : PyDict) (k v : String) :
    dictGet? (dictSet d k v) k = some v := by
  by_cases hh : dictHas d k
  · simp only [dictSet, hh, if_true]
    induction d with
    | nil => simp [dictHas] at hh
    | cons p rest ih =>
      by_cases hp : p.1 = k
      · simp [dictGet?, hp]
      · simp [dictHas, hp] at hh
        simp [dictGet?, hp, ih hh]
  · simp only [dictSet, hh, if_false, Bool.false_eq_true]
    rw [dictGet?_append, dictGet?_eq_none_of_not_has d k (by simpa using hh)]
    simp [dictGet?]

theorem dictGet?_mapSet_ne (d : PyDict) (k v k' : String) (h : k ≠ k') :
    dictGet? (d.map (fun p => if p.1 = k then (k, v) else p)) k' = dictGet? d k' := by
  induction d with
  | nil => rfl
  | cons p rest ih =>
    by_cases hp : p.1 = k
    · simp [dictGet?, hp, h, fun hc : k = k' => h hc, ih]
    · simp [dictGet?, hp, ih]

theorem dictGet?_dictSet_ne (d : PyDict) (k v k' : String) (h : k ≠ k') :
    dictGet? (dictSet d k v) k' = dictGet? d k' := by
  by_cases hh : dictHas d k
  · simp only [dictSet, hh, if_true]
    exact dictGet?_mapSet_ne d k v k' h
  · simp only [dictSet, hh, if_false, Bool.false_eq_true]
    rw [dictGet?_append]
    simp [dictGet?, fun hc : k = k' => h hc]

theorem dictGet?_dictUpdate_none (d e : PyDict) (k : String)
    (h : dictGet? e k = none) :
    dictGet? (dictUpdate d e) k = dictGet? d k := by
  induction e generalizing d with
  | nil => rfl
  | cons p rest ih =>
    by_cases hp : p.1 = k
    · simp [dictGet?, hp] at h
    · simp [dictGet?, hp] at h
      rw [dictUpdate, ih _ h, dictGet?_dictSet_ne _ _ _ _ hp]

theorem dictGet?_eq_none_of_not_mem_keys (e : PyDict) (k : String)
    (h : k ∉ dictKeys e) : dictGet? e k = none := by
  induction e with
  | nil => rfl
  | cons p rest ih =>
    simp only [dictKeys, List.map_cons, List.mem_cons] at h
    push_neg at h
    have h2 : k ∉ dictKeys rest := by simpa [dictKeys] using h.2
    have hne : ¬p.1 = k := fun hc => h.1 hc.symm
    simp [dictGet?, hne, ih h2]

theorem dictGet?_dictUpdate_some (d e : PyDict) (k v : String)
    (hnd : (dictKeys e).Nodup) (h : dictGet? e k = some v) :
    dictGet? (dictUpdate d e) k = some v := by
  induction e generalizing d with
  | nil => simp [dictGet?] at h
  | cons p rest ih =>
    obtain ⟨pk, pv⟩ := p
    simp only [dictKeys, List.map_cons, List.nodup_cons] at hnd
    by_cases hp : pk = k
    · subst hp
      simp [dictGet?] at h
      have hk : pk ∉ dictKeys rest := by simpa [dictKeys] using hnd.1
      rw [dictUpdate,
        dictGet?_dictUpdate_none _ _ _ (dictGet?_eq_none_of_not_mem_keys _ _ hk)]
      rw [dictGet?_dictSet_self d pk pv, h]
    · simp [dictGet?, hp] at h
      rw [dictUpdate]
      exact ih (dictSet d pk pv) hnd.2 h

theorem dictKeys_mapSet (d : PyDict) (k v : String) :
    dictKeys (d.map (fun p => if p.1 = k then (k, v) else p)) = dictKeys d := by
  induction d with
  | nil => rfl
  | cons p rest ih =>
    simp only [dictKeys, List.map_cons] at ih ⊢
    rw [ih]
    by_cases hp : p.1 = k
    · rw [if_pos hp]
      simp [hp]
    · rw [if_neg hp]

theorem nodup_dictKeys_dictSet (d : PyDict) (k v : String)
    (h : (dictKeys d).Nodup) : (dictKeys (dictSet d k v)).Nodup := by
  by_cases hh : dictHas d k
  · simpa [dictSet, hh, dictKeys_mapSet] using h
  · have hk : k ∉ dictKeys d := fun hm => hh ((dictHas_iff_mem d k).mpr hm)
    simp only [dictSet, hh, if_false, Bool.false_eq_true]
    simp [dictKeys, List.nodup_append]
    exact ⟨h, by simpa [dictKeys] using hk⟩

theorem nodup_dictKeys_dictUpdate (d e : PyDict)
    (h : (dictKeys d).Nodup) : (dictKeys (dictUpdate d e)).Nodup := by
  induction e generalizing d with
  | nil => exact h
  | cons p rest ih => exact ih _ (nodup_dictKeys_dictSet _ _ _ h)

theorem any_isHeader_map_kv (n : String) (config : PyDict) :
    (config.map (fun p => ConfigLine.kv p.1 p.2)).any (isHeader n) = false := by
  induction config with
  | nil => rfl
  | cons p rest ih => simp [isHeader, ih]

/-- C1: for every task that carries attributes, the generated configuration
contains an `[encrypted]` remote section iff `encryption` is true; when
present, that section has type `crypt`, its `remote` key is the previously
computed base remote path, `filename_encryption` is `standard`/`off` per the
flag, `password` (and `password2` for a non-empty salt) come from the
password obfuscator, and the returned effective remote path is
`encrypted:/`. -/
theorem c1_encrypted_remote_section (provider : RcloneRemote) (obf : String → String)
    (cs : CloudSyncData) (attrs : PyDict) (hattrs : cs.taskAttributes = some attrs) :
    (hasEncryptedSection (RcloneConfig_enter provider obf cs) = cs.encryption) ∧
    (cs.encryption = true →
      (RcloneConfig_enter provider obf cs).lines.take 5 =
        [ConfigLine.header "encrypted",
         ConfigLine.kv "type" "crypt",
         ConfigLine.kv "remote" ("remote:" ++ pyStripSlashes
           (((dictGet? attrs "bucket").getD "") ++ "/" ++
            ((dictGet? attrs "folder").getD ""))),
         ConfigLine.kv "filename_encryption"
           (if cs.filename_encryption then "standard" else "off"),
         ConfigLine.kv "password" (obf cs.encryption_password)] ∧
      (cs.encryption_salt ≠ "" →
        (RcloneConfig_enter provider obf cs).lines.get? 5 =
          some (ConfigLine.kv "password2" (obf cs.encryption_salt))) ∧
      (RcloneConfig_enter provider obf cs).remote_path = some "encrypted:/") := by
  constructor
  · cases henc : cs.encryption <;>
      simp [RcloneConfig_enter, hattrs, henc, hasEncryptedSection, isHeader,
        any_isHeader_map_kv]
  · intro henc
    by_cases hsalt : cs.encryption_salt = "" <;>
      refine ⟨?_, ?_, ?_⟩ <;>
        simp [RcloneConfig_enter, hattrs, henc, hsalt]

/- ### Concrete example inputs shared by witnesses and counterexamples -/

/-- A transparent stand-in for the obfuscator: prefix a `!`. -/
def exObf : String → String := fun s => String.mk ('!' :: s.data)

def exProvider : RcloneRemote := { name := "s3", rclone_type := "s3" }

def exTaskEnc : CloudSyncData :=
  { taskAttributes := some [("bucket", "bkt"), ("folder", "docs")],
    encryption := true, filename_encryption := true,
    encryption_password := "pw", encryption_salt := "salt" }

theorem c1_encrypted_remote_section_witness :
    hasEncryptedSection (RcloneConfig_enter exProvider exObf exTaskEnc) = true ∧
    (RcloneConfig_enter exProvider exObf exTaskEnc).lines.take 5 =
      [ConfigLine.header "encrypted", ConfigLine.kv "type" "crypt",
       ConfigLine.kv "remote" "remote:bkt/docs",
       ConfigLine.kv "filename_encryption" "standard",
       ConfigLine.kv "password" (exObf "pw")] ∧
    (RcloneConfig_enter exProvider exObf exTaskEnc).lines.get? 5 =
      some (ConfigLine.kv "password2" (exObf "salt")) ∧
    (RcloneConfig_enter exProvider exObf exTaskEnc).remote_path = some "encrypted:/" := by
  have h := c1_encrypted_remote_section exProvider exObf exTaskEnc
    [("bucket", "bkt"), ("folder", "docs")] rfl
  have h2 := h.2 rfl
  refine ⟨h.1.trans rfl, ?_, h2.2.1 (by decide), h2.2.2⟩
  rw [h2.1]
  decide

theorem kv_mem_enter_lines (provider : RcloneRemote) (obf : String → String)
    (cs : CloudSyncData) (attrs : PyDict) (k v : String)
    (hattrs : cs.taskAttributes = some attrs)
    (h : (k, v) ∈ assembledConfig provider obf cs attrs) :
    ConfigLine.kv k v ∈ (RcloneConfig_enter provider obf cs).lines := by
  have hm : ConfigLine.kv k v ∈
      (assembledConfig provider obf cs attrs).map (fun p => ConfigLine.kv p.1 p.2) :=
    List.mem_map.mpr ⟨(k, v), h, rfl⟩
  cases henc : cs.encryption <;> simp [RcloneConfig_enter, hattrs, henc] <;> tauto

/-- C2 counterexample: a `pass` key arriving through the task attributes is
written to the file unobfuscated — the obfuscation step runs before the task
attributes are merged in. -/
theorem c2_counterexample :
    ConfigLine.kv "pass" "secret" ∈
      (RcloneConfig_enter exProvider exObf
        { credAttributes := [],
          taskAttributes := some [("pass", "secret"), ("folder", "backup")] }).lines ∧
    ConfigLine.kv "pass" (exObf "secret") ∉
      (RcloneConfig_enter exProvider exObf
        { credAttributes := [],
          taskAttributes := some [("pass", "secret"), ("folder", "backup")] }).lines := by
  decide

/-- C2 (amended): a `pass` key present after merging the credential
attributes with the provider's extra credential attributes is obfuscated
before being written; a `pass` key introduced by the task attributes or the
provider's extra task attributes overrides it and is written raw. -/
theorem c2_pass_obfuscation_scope (provider : RcloneRemote) (obf : String → String)
    (cs : CloudSyncData) (attrs : PyDict) (hattrs : cs.taskAttributes = some attrs)
    (hA : (dictKeys attrs).Nodup) :
    (∀ v, dictGet? (dictUpdate attrs provider.taskExtra) "pass" = some v →
       ConfigLine.kv "pass" v ∈ (RcloneConfig_enter provider obf cs).lines) ∧
    (dictGet? (dictUpdate attrs provider.taskExtra) "pass" = none →
     ∀ v, dictGet? (credSideConfig provider cs) "pass" = some v →
       ConfigLine.kv "pass" (obf v) ∈ (RcloneConfig_enter provider obf cs).lines) := by
  constructor
  · intro v hv
    have hnd : (dictKeys (dictUpdate attrs provider.taskExtra)).Nodup :=
      nodup_dictKeys_dictUpdate _ _ hA
    have hget : dictGet? (assembledConfig provider obf cs attrs) "pass" = some v :=
      dictGet?_dictUpdate_some _ _ _ _ hnd hv
    exact kv_mem_enter_lines provider obf cs attrs _ _ hattrs (dictGet?_mem _ _ _ hget)
  · intro hnone v hv
    have hhas : dictHas (credSideConfig provider cs) "pass" = true :=
      dictHas_of_dictGet?_some _ _ _ hv
    have hget : dictGet? (assembledConfig provider obf cs attrs) "pass" = some (obf v) := by
      rw [assembledConfig, dictGet?_dictUpdate_none _ _ _ hnone, obfuscatePass,
        if_pos hhas, dictGet?_dictSet_self, hv]
      rfl
    exact kv_mem_enter_lines provider obf cs attrs _ _ hattrs (dictGet?_mem _ _ _ hget)

theorem c2_pass_obfuscation_scope_witness :
    ConfigLine.kv "pass" (exObf "credsecret") ∈
      (RcloneConfig_enter exProvider exObf
        { credAttributes := [("pass", "credsecret")],
          taskAttributes := some [("folder", "backup")] }).lines := by
  have h := c2_pass_obfuscation_scope exProvider exObf
    { credAttributes := [("pass", "credsecret")],
      taskAttributes := some [("folder", "backup")] }
    [("folder", "backup")] rfl (by decide)
  exact h.2 (by decide) "credsecret" (by decide)

def exC4Task : CloudSyncData :=
  { direction := "PUSH", transfer_mode := "SYNC", path := "/data",
    taskAttributes := some [("folder", "backup")] }

/-- C4: for a task carrying attributes (without encryption) the logical
remote path is `remote:` followed by bucket and folder joined with `/` and
stripped of leading/trailing slashes; the claim's concrete PUSH/SYNC example
yields `remote:backup` and an rclone invocation in `sync` mode from `/data`
to `remote:backup`. -/
theorem c4_remote_path (provider : RcloneRemote) (obf : String → String)
    (cs : CloudSyncData) (attrs : PyDict) (hattrs : cs.taskAttributes = some attrs)
    (henc : cs.encryption = false) :
    (RcloneConfig_enter provider obf cs).remote_path =
      some ("remote:" ++ pyStripSlashes
        (((dictGet? attrs "bucket").getD "") ++ "/" ++
         ((dictGet? attrs "folder").getD ""))) ∧
    (RcloneConfig_enter exProvider obf exC4Task).remote_path = some "remote:backup" ∧
    rcloneArgs "CONFIGTMP" exC4Task.transfer_mode exC4Task.direction exC4Task.path
        ((RcloneConfig_enter exProvider obf exC4Task).remote_path.getD "") =
      ["/usr/local/bin/rclone", "--config", "CONFIGTMP", "-v", "--stats", "1s",
       "sync", "/data", "remote:backup"] := by
  refine ⟨by simp [RcloneConfig_enter, hattrs, henc], rfl, rfl⟩

theorem c4_remote_path_witness :
    (RcloneConfig_enter exProvider exObf exC4Task).remote_path =
      some "remote:backup" := by
  have h := c4_remote_path exProvider exObf exC4Task [("folder", "backup")] rfl rfl
  exact h.2.1

/-- C7 counterexample: the run does not fail with the tool's diagnostic text;
the raised error is the fixed string `rclone failed` regardless of the
process output. -/
theorem c7_counterexample :
    RcloneEvent.raisedValueError "2019/08/13 ERROR : connection refused" ∉
      (rclone_run exProvider exObf exC4Task "CONFIGTMP" 1
        ["2019/08/13 ERROR : connection refused"]).1 ∧
    RcloneEvent.raisedValueError "rclone failed" ∈
      (rclone_run exProvider exObf exC4Task "CONFIGTMP" 1
        ["2019/08/13 ERROR : connection refused"]).1 := by
  decide

/-- C7 (amended): on a non-zero exit status the executor awaits the
progress-reading task and only then raises, but the raised error carries the
fixed message `rclone failed`; the tool's own output reaches the job log via
the progress reader.  A zero exit status reports success. -/
theorem c7_failure_path (provider : RcloneRemote) (obf : String → String)
    (cs : CloudSyncData) (configPath : String) (rc : Int) (lines : List String)
    (h : rc ≠ 0) :
    (rclone_run provider obf cs configPath rc lines) =
      ([RcloneEvent.spawned (rcloneArgs configPath cs.transfer_mode cs.direction cs.path
          (((RcloneConfig_enter provider obf cs).remote_path).getD "")),
        RcloneEvent.progressStarted, RcloneEvent.processWaited,
        RcloneEvent.progressAwaited, RcloneEvent.raisedValueError "rclone failed"],
       lines) ∧
    (rclone_run provider obf cs configPath 0 lines) =
      ([RcloneEvent.spawned (rcloneArgs configPath cs.transfer_mode cs.direction cs.path
          (((RcloneConfig_enter provider obf cs).remote_path).getD "")),
        RcloneEvent.progressStarted, RcloneEvent.processWaited,
        RcloneEvent.returnedTrue],
       lines) := by
  constructor <;> simp [rclone_run, h]

theorem c7_failure_path_witness :
    (rclone_run exProvider exObf exC4Task "CONFIGTMP" 1 ["line1"]) =
      ([RcloneEvent.spawned (rcloneArgs "CONFIGTMP" "SYNC" "PUSH" "/data" "remote:backup"),
        RcloneEvent.progressStarted, RcloneEvent.processWaited,
        RcloneEvent.progressAwaited, RcloneEvent.raisedValueError "rclone failed"],
       ["line1"]) := by
  have h := c7_failure_path exProvider exObf exC4Task "CONFIGTMP" 1 ["line1"] (by decide)
  exact h.1

/-- C8 counterexample: task validation with a credential whose provider is
not registered escapes with a `KeyError` instead of recording a validation
error. -/
theorem c8_counterexample :
    CloudSync_validate [] "azureblob" (fun _ => []) [] "cloud_sync" false "" =
      Except.error (PyError.keyError "azureblob") := by
  rfl

/-- C8 (amended): on an unknown provider, task validation
(`CloudSyncService._validate`) raises a `KeyError` from the registry lookup;
only credential validation (`CredentialsService._validate`) records the
field-scoped `Invalid provider` error and skips the provider-specific
checks. -/
theorem c8_unknown_provider (remotes : List (String × RcloneRemote)) (p : String)
    (attrVerrors cattrVerrors : List String → VErrors) (preSaveErrs : VErrors)
    (name schema_name : String) (encryption : Bool) (encryption_password : String)
    (h : lookupRemote remotes p = none) :
    CloudSync_validate remotes p attrVerrors preSaveErrs name encryption
      encryption_password = Except.error (PyError.keyError p) ∧
    Credentials_validate remotes schema_name p cattrVerrors =
      Except.error [(schema_name ++ ".provider", "Invalid provider")] := by
  constructor <;> simp [CloudSync_validate, Credentials_validate, h]

theorem c8_unknown_provider_witness :
    CloudSync_validate [("s3", exProvider)] "gdrive" (fun _ => []) [] "cloud_sync"
      false "" = Except.error (PyError.keyError "gdrive") ∧
    Credentials_validate [("s3", exProvider)] "cloud_sync_credentials" "gdrive"
      (fun _ => []) =
      Except.error [("cloud_sync_credentials.provider", "Invalid provider")] := by
  have h := c8_unknown_provider [("s3", exProvider)] "gdrive" (fun _ => [])
    (fun _ => []) [] "cloud_sync" "cloud_sync_credentials" false "" (by decide)
  exact ⟨h.1, by simpa using h.2⟩

/-- C9: a PUSH task against a read-only provider always gets the
`This remote is read-only` validation error on the direction field, whatever
the folder value and whatever any listing would return. -/
theorem c9_push_readonly (remotes : List (String × RcloneRemote))
    (credProvider : String) (listDir : String → List LsEntry)
    (name folder : String) (prov : RcloneRemote)
    (hl : lookupRemote remotes credProvider = some prov)
    (hro : prov.readonly = true) :
    CloudSync_validate_folder remotes credProvider listDir name "PUSH" folder =
      Except.ok [(name ++ ".direction", "This remote is read-only")] := by
  simp [CloudSync_validate_folder, hl, hro]

theorem c9_push_readonly_witness :
    CloudSync_validate_folder [("http", { readonly := true })] "http"
      (fun _ => [⟨"x", false⟩]) "cloud_sync" "PUSH" "some//folder" =
      Except.ok [("cloud_sync.direction", "This remote is read-only")] :=
  c9_push_readonly [("http", { readonly := true })] "http"
    (fun _ => [⟨"x", false⟩]) "cloud_sync" "some//folder" { readonly := true }
    (by decide) rfl

def exDupListing : String → List LsEntry := fun _ => [⟨"b", true⟩, ⟨"b", true⟩]

/-- C6 counterexample: with a listing holding two directory entries named
`b`, the validator accepts the task although the listing does not contain
exactly one matching directory entry — only the first matching entry is
examined. -/
theorem c6_counterexample :
    CloudSync_validate_folder [] "s3" exDupListing "cloud_sync" "PULL" "b" =
      Except.ok [] ∧
    (exDupListing (folderParent (pyStripSlashes "b"))).countP
      (fun e => e.Name == pyBasename (pyStripSlashes "b") && e.IsDir) = 2 :=
  ⟨rfl, by decide⟩

/-- C6 (amended): for a PULL task with a non-empty stripped folder the
validator lists the folder's parent and checks only the first entry whose
name matches the folder's base name: no match records
`Directory does not exist`, a non-directory first match records
`This is not a directory`, a directory first match accepts.  An empty
stripped folder skips the listing entirely. -/
theorem c6_pull_folder_validation (remotes : List (String × RcloneRemote))
    (credProvider : String) (listDir : String → List LsEntry)
    (name folder : String) :
    (pyStripSlashes folder ≠ "" →
      ((listDir (folderParent (pyStripSlashes folder))).find?
          (fun i => i.Name == pyBasename (pyStripSlashes folder)) = none →
        CloudSync_validate_folder remotes credProvider listDir name "PULL" folder =
          Except.ok [(name ++ ".attributes.folder", "Directory does not exist")]) ∧
      (∀ e, (listDir (folderParent (pyStripSlashes folder))).find?
          (fun i => i.Name == pyBasename (pyStripSlashes folder)) = some e →
        CloudSync_validate_folder remotes credProvider listDir name "PULL" folder =
          Except.ok (if e.IsDir then []
            else [(name ++ ".attributes.folder", "This is not a directory")]))) ∧
    (pyStripSlashes folder = "" →
      CloudSync_validate_folder remotes credProvider listDir name "PULL" folder =
        Except.ok [] ∧
      ∀ listDir2 : String → List LsEntry,
        CloudSync_validate_folder remotes credProvider listDir2 name "PULL" folder =
          CloudSync_validate_folder remotes credProvider listDir name "PULL" folder) := by
  refine ⟨fun hne => ⟨fun hfind => ?_, fun e hfind => ?_⟩, fun hemp => ⟨?_, fun l2 => ?_⟩⟩
  · simp [CloudSync_validate_folder, hne, hfind]
  · by_cases hd : e.IsDir <;> simp [CloudSync_validate_folder, hne, hfind, hd]
  · simp [CloudSync_validate_folder, hemp]
  · simp [CloudSync_validate_folder, hemp]

theorem c6_pull_folder_validation_witness :
    CloudSync_validate_folder [] "s3" (fun _ => [⟨"sub", true⟩]) "cloud_sync" "PULL"
      "docs/sub" = Except.ok [] := by
  have h := c6_pull_folder_validation [] "s3" (fun _ => [⟨"sub", true⟩])
    "cloud_sync" "docs/sub"
  have h2 := (h.1 (by decide)).2 ⟨"sub", true⟩ (by decide)
  simpa using h2

/- ### Lemmas about association lists (lock state and cache) -/

theorem assocGet_assocSet_self {α : Type} (l : List (String × α)) (k : String) (v : α) :
    assocGet (assocSet l k v) k = some v := by
  induction l with
  | nil => simp [assocSet, assocGet]
  | cons p rest ih =>
    by_cases hp : p.1 = k
    · simp [assocSet, assocGet, hp]
    · simp [assocSet, assocGet, hp, ih]

theorem assocGet_assocSet_ne {α : Type} (l : List (String × α)) (k k' : String) (v : α)
    (h : k ≠ k') : assocGet (assocSet l k v) k' = assocGet l k' := by
  induction l with
  | nil => simp [assocSet, assocGet, fun hc : k = k' => h hc]
  | cons p rest ih =>
    by_cases hp : p.1 = k
    · simp [assocSet, assocGet, hp, fun hc : k = k' => h hc]
    · simp [assocSet, assocGet, hp, ih]

theorem assocGet_assocDel_self {α : Type} (l : List (String × α)) (k : String) :
    assocGet (assocDel l k) k = none := by
  induction l with
  | nil => rfl
  | cons p rest ih =>
    by_cases hp : p.1 = k
    · simp [assocDel, hp, ih]
    · simp [assocDel, assocGet, hp, ih]

theorem assocGet_assocDel_ne {α : Type} (l : List (String × α)) (k k' : String)
    (h : k ≠ k') : assocGet (assocDel l k) k' = assocGet l k' := by
  induction l with
  | nil => rfl
  | cons p rest ih =>
    by_cases hp : p.1 = k
    · simp [assocDel, assocGet, hp, ih, h]
    · simp [assocDel, assocGet, hp, ih]

/-- C10: for the in-memory cache, once an entry's timeout instant has
passed, `has_key` still answers true (no expiry check); a subsequent `get`
raises `KeyError` and deletes the entry, after which `has_key` answers
false. -/
theorem c10_cache_expiry {α : Type} (c : CacheState α) (k : String) (v : α)
    (t now : Nat) (h : t ≤ now) :
    cache_has_key (cache_put c k v (some t)) k = true ∧
    (cache_get now (cache_put c k v (some t)) k).1 =
      Except.error ("Key has expired at " ++ toString t) ∧
    (cache_get now (cache_put c k v (some t)) k).2 =
      assocDel (cache_put c k v (some t)) k ∧
    cache_has_key (cache_get now (cache_put c k v (some t)) k).2 k = false := by
  have hg : assocGet (cache_put c k v (some t)) k = some (CacheEntry.timed v t) :=
    assocGet_assocSet_self c k (CacheEntry.timed v t)
  refine ⟨?_, ?_, ?_, ?_⟩
  · simp [cache_has_key, hg]
  · simp [cache_get, hg, h]
  · simp [cache_get, hg, h]
  · simp [cache_get, hg, h, cache_has_key, assocGet_assocDel_self]

theorem c10_cache_expiry_witness :
    cache_has_key (cache_put ([] : CacheState Nat) "tank" 7 (some 5)) "tank" = true ∧
    (cache_get 6 (cache_put ([] : CacheState Nat) "tank" 7 (some 5)) "tank").1 =
      Except.error ("Key has expired at " ++ toString 5) ∧
    cache_has_key (cache_get 6 (cache_put ([] : CacheState Nat) "tank" 7 (some 5))
      "tank").2 "tank" = false := by
  have h := c10_cache_expiry ([] : CacheState Nat) "tank" 7 5 6 (by decide)
  exact ⟨h.1, h.2.1, h.2.2.2⟩

/- ### Lemmas about the single-flight lock model -/

theorem lockRun_append (s : LockState) (l1 l2 : List JobEvent) :
    lockRun s (l1 ++ l2) = (lockRun s l1).bind (fun s' => lockRun s' l2) := by
  induction l1 generalizing s with
  | nil => rfl
  | cons e rest ih =>
    simp only [List.cons_append, lockRun]
    cases lockStep s e with
    | none => rfl
    | some s' => simp [ih s']

theorem lockStep_holder_persists (s s' : LockState) (e : JobEvent) (k : String)
    (a : Nat) (hstep : lockStep s e = some s')
    (hh : assocGet s.holders k = some a) (hne : e ≠ JobEvent.finish k a) :
    assocGet s'.holders k = some a := by
  cases e with
  | request k' r =>
    simp only [lockStep, Option.some.injEq] at hstep
    rw [← hstep]
    split <;> simpa using hh
  | start k' r =>
    simp only [lockStep] at hstep
    split at hstep
    case isTrue hcond =>
      simp only [Option.some.injEq] at hstep
      have hkk : k' ≠ k := by
        intro hc
        rw [hc, hh] at hcond
        exact Option.noConfusion hcond.1
      rw [← hstep]
      simpa [assocGet_assocSet_ne s.holders k' k r hkk] using hh
    case isFalse => exact Option.noConfusion hstep
  | finish k' r =>
    simp only [lockStep] at hstep
    split at hstep
    case isTrue hcond =>
      simp only [Option.some.injEq] at hstep
      by_cases hkk : k' = k
      · subst hkk
        rw [hh] at hcond
        injection hcond with hra
        exact absurd (by rw [hra]) hne
      · rw [← hstep]
        simpa [assocGet_assocDel_ne s.holders k' k hkk] using hh
    case isFalse => exact Option.noConfusion hstep

theorem lockRun_holder_persists (evs : List JobEvent) (s s' : LockState)
    (k : String) (a : Nat) (hrun : lockRun s evs = some s')
    (hh : assocGet s.holders k = some a) (hnf : JobEvent.finish k a ∉ evs) :
    assocGet s'.holders k = some a := by
  induction evs generalizing s with
  | nil => cases hrun; exact hh
  | cons e rest ih =>
    simp only [lockRun] at hrun
    cases hstep : lockStep s e with
    | none => rw [hstep] at hrun; exact Option.noConfusion hrun
    | some s1 =>
      rw [hstep, Option.some_bind] at hrun
      have hne : e ≠ JobEvent.finish k a := fun hc =>
        hnf (hc ▸ List.mem_cons_self e rest)
      exact ih s1 hrun (lockStep_holder_persists s s1 e k a hstep hh hne)
        (fun hm => hnf (List.mem_cons_of_mem _ hm))

theorem lockStep_start_holder (s s' : LockState) (k : String) (r : Nat)
    (hstep : lockStep s (JobEvent.start k r) = some s') :
    assocGet s'.holders k = some r ∧ assocGet s.holders k = none := by
  simp only [lockStep] at hstep
  split at hstep
  case isTrue hcond =>
    simp only [Option.some.injEq] at hstep
    rw [← hstep]
    exact ⟨by simpa using assocGet_assocSet_self s.holders k r, hcond.1⟩
  case isFalse => exact Option.noConfusion hstep

/-- C3 (spec-modelled): the depth-1 lock keyed by `cloud_sync:{id}` serializes
runs per task identity: in every valid trace a second `start` for the same
key can only occur after a `finish` of the first; a run request is never
rejected (it is queued or coalesced, with the pending queue bounded to one
entry); and runs under two different task identities proceed concurrently. -/
theorem c3_single_flight_per_task (k : String) (a b : Nat)
    (t1 t2 t3 : List JobEvent)
    (hv : (lockRun initLockState
      (t1 ++ JobEvent.start k a :: (t2 ++ JobEvent.start k b :: t3))).isSome = true) :
    JobEvent.finish k a ∈ t2 ∧
    (∀ s : LockState, ∀ k' : String, ∀ r : Nat,
      (lockStep s (JobEvent.request k' r)).isSome = true) ∧
    (lockRun initLockState
        [JobEvent.request (syncLockKey 1) 10, JobEvent.start (syncLockKey 1) 10,
         JobEvent.request (syncLockKey 2) 20, JobEvent.start (syncLockKey 2) 20]).map
      (fun s => (assocGet s.holders (syncLockKey 1), assocGet s.holders (syncLockKey 2))) =
      some (some 10, some 20) ∧
    (lockRun initLockState
        [JobEvent.request (syncLockKey 1) 10, JobEvent.start (syncLockKey 1) 10,
         JobEvent.request (syncLockKey 1) 11, JobEvent.request (syncLockKey 1) 12]).map
      (fun s => (assocGet s.holders (syncLockKey 1), getQueue s (syncLockKey 1))) =
      some (some 10, [11]) := by
  refine ⟨?_, fun s k' r => by simp [lockStep], by decide, by decide⟩
  by_contra hmem
  rw [lockRun_append] at hv
  cases h1 : lockRun initLockState t1 with
  | none => rw [h1] at hv; simp at hv
  | some s1 =>
    rw [h1, Option.some_bind] at hv
    simp only [lockRun] at hv
    cases h2 : lockStep s1 (JobEvent.start k a) with
    | none => rw [h2] at hv; simp at hv
    | some s2 =>
      rw [h2, Option.some_bind] at hv
      rw [lockRun_append] at hv
      cases h3 : lockRun s2 t2 with
      | none => rw [h3] at hv; simp at hv
      | some s3 =>
        rw [h3, Option.some_bind] at hv
        simp only [lockRun] at hv
        cases h4 : lockStep s3 (JobEvent.start k b) with
        | none => rw [h4] at hv; simp at hv
        | some s4 =>
          have hs2 := (lockStep_start_holder s1 s2 k a h2).1
          have hs3 : assocGet s3.holders k = some a :=
            lockRun_holder_persists t2 s2 s3 k a h3 hs2 hmem
          have hnone := (lockStep_start_holder s3 s4 k b h4).2
          rw [hs3] at hnone
          exact Option.noConfusion hnone

theorem c3_single_flight_per_task_witness :
    JobEvent.finish (syncLockKey 1) 1 ∈
      [JobEvent.request (syncLockKey 1) 2, JobEvent.finish (syncLockKey 1) 1] := by
  have h := c3_single_flight_per_task (syncLockKey 1) 1 2
    [JobEvent.request (syncLockKey 1) 1]
    [JobEvent.request (syncLockKey 1) 2, JobEvent.finish (syncLockKey 1) 1]
    [] (by decide)
  exact h.1

/- ### Lemmas for the obfuscator -/

theorem zipWith_xor_cancel (m ks : List Nat) (h : m.length ≤ ks.length) :
    List.zipWith Nat.xor (List.zipWith Nat.xor m ks) ks = m := by
  induction m generalizing ks with
  | nil => simp
  | cons x xs ih =>
    cases ks with
    | nil => simp at h
    | cons y ys =>
      simp only [List.zipWith_cons_cons, List.cons.injEq]
      exact ⟨Nat.xor_cancel_right y x, ih ys (by simpa using h)⟩

theorem zipWith_xor_lt (m ks : List Nat) (hm : ∀ x ∈ m, x < 256)
    (hk : ∀ x ∈ ks, x < 256) :
    ∀ x ∈ List.zipWith Nat.xor m ks, x < 256 := by
  induction m generalizing ks with
  | nil => simp
  | cons a as ih =>
    cases ks with
    | nil => simp
    | cons b bs =>
      intro x hx
      simp only [List.zipWith_cons_cons, List.mem_cons] at hx
      rcases hx with hx | hx
      · subst hx
        exact Nat.xor_lt_two_pow (n := 8) (hm a (by simp)) (hk b (by simp))
      · exact ih bs (fun y hy => hm y (by simp [hy])) (fun y hy => hk y (by simp [hy])) x hx

theorem ctrBlocks_length (enc : List Nat → List Nat) (ivVal : Nat)
    (hlen : ∀ blk, (enc blk).length = 16) (n : Nat) :
    ∀ i, (ctrBlocks enc ivVal i n).length = 16 * n := by
  induction n with
  | zero => intro i; rfl
  | succ m ih =>
    intro i
    simp only [ctrBlocks, List.length_append, hlen, ih (i + 1)]
    ring

theorem ctrBlocks_lt (enc : List Nat → List Nat) (ivVal : Nat)
    (hbyte : ∀ blk, ∀ b ∈ enc blk, b < 256) (n : Nat) :
    ∀ i, ∀ b ∈ ctrBlocks enc ivVal i n, b < 256 := by
  induction n with
  | zero => simp [ctrBlocks]
  | succ m ih =>
    intro i b hb
    simp only [ctrBlocks, List.mem_append] at hb
    rcases hb with hb | hb
    · exact hbyte _ b hb
    · exact ih (i + 1) b hb

theorem aesCtrEncrypt_length (enc : List Nat → List Nat) (iv msg : List Nat)
    (hlen : ∀ blk, (enc blk).length = 16) :
    (aesCtrEncrypt enc iv msg).length = msg.length := by
  have hks : (ctrKeystream enc (beVal iv) ((msg.length + 15) / 16)).length =
      16 * ((msg.length + 15) / 16) :=
    ctrBlocks_length enc (beVal iv) hlen _ 0
  simp only [aesCtrEncrypt, List.length_zipWith, hks]
  omega

theorem aesCtrEncrypt_lt (enc : List Nat → List Nat) (iv msg : List Nat)
    (hm : ∀ x ∈ msg, x < 256) (hbyte : ∀ blk, ∀ b ∈ enc blk, b < 256) :
    ∀ x ∈ aesCtrEncrypt enc iv msg, x < 256 :=
  zipWith_xor_lt _ _ hm (ctrBlocks_lt enc (beVal iv) hbyte _ 0)

theorem utf8Bytes_lt (s : String) : ∀ b ∈ utf8Bytes s, b < 256 := by
  intro b hb
  simp only [utf8Bytes, List.mem_map] at hb
  obtain ⟨u, _, rfl⟩ := hb
  exact u.toNat_lt

theorem encodeChunks_lt : ∀ bs : List Nat, (∀ b ∈ bs, b < 256) →
    ∀ s ∈ encodeChunks bs, s < 64
  | [], _ => by simp [encodeChunks]
  | [b0], h => by
    have h0 := h b0 (by simp)
    simp only [encodeChunks, List.mem_cons, List.not_mem_nil, or_false]
    rintro s (rfl | rfl) <;> omega
  | [b0, b1], h => by
    have h0 := h b0 (by simp)
    have h1 := h b1 (by simp)
    simp only [encodeChunks, List.mem_cons, List.not_mem_nil, or_false]
    rintro s (rfl | rfl | rfl) <;> omega
  | b0 :: b1 :: b2 :: rest, h => by
    have h0 := h b0 (by simp)
    have h1 := h b1 (by simp)
    have h2 := h b2 (by simp)
    have ih := encodeChunks_lt rest (fun b hb => h b (by simp [hb]))
    simp only [encodeChunks, List.mem_cons]
    rintro s (rfl | rfl | rfl | rfl | hs)
    · omega
    · omega
    · omega
    · omega
    · exact ih s hs

theorem decodeChunks_encodeChunks : ∀ bs : List Nat, (∀ b ∈ bs, b < 256) →
    decodeChunks (encodeChunks bs) = bs
  | [], _ => rfl
  | [b0], h => by
    have h0 := h b0 (by simp)
    simp only [encodeChunks, decodeChunks, List.cons.injEq, and_true]
    omega
  | [b0, b1], h => by
    have h0 := h b0 (by simp)
    have h1 := h b1 (by simp)
    simp only [encodeChunks, decodeChunks, List.cons.injEq, and_true]
    constructor
    · omega
    · omega
  | b0 :: b1 :: b2 :: rest, h => by
    have h0 := h b0 (by simp)
    have h1 := h b1 (by simp)
    have h2 := h b2 (by simp)
    have ih := decodeChunks_encodeChunks rest (fun b hb => h b (by simp [hb]))
    simp only [encodeChunks, decodeChunks, ih, List.cons.injEq, and_true]
    refine ⟨by omega, by omega, by omega⟩

theorem b64Index_b64Char : ∀ n, n < 64 → b64Index (b64Char n) = some n := by decide

theorem decodeIndices_map_b64Char : ∀ sx : List Nat, (∀ s ∈ sx, s < 64) →
    decodeIndices (sx.map b64Char) = some sx
  | [], _ => rfl
  | s :: rest, h => by
    have hs := b64Index_b64Char s (h s (by simp))
    have ih := decodeIndices_map_b64Char rest (fun x hx => h x (by simp [hx]))
    simp [decodeIndices, hs, ih]

theorem decodeToken_encrypt (aes : List Nat → List Nat → List Nat)
    (hbyte : ∀ blk, ∀ b ∈ aes rcloneFixedKey blk, b < 256)
    (iv : List Nat) (hivb : ∀ b ∈ iv, b < 256) (password : String) :
    decodeToken (rclone_encrypt_password aes iv password) =
      some (iv ++ aesCtrEncrypt (aes rcloneFixedKey) iv (utf8Bytes password)) := by
  have hbytes : ∀ b ∈ iv ++ aesCtrEncrypt (aes rcloneFixedKey) iv (utf8Bytes password),
      b < 256 := by
    intro b hb
    rcases List.mem_append.mp hb with hb | hb
    · exact hivb b hb
    · exact aesCtrEncrypt_lt _ _ _ (utf8Bytes_lt password) hbyte b hb
  show (decodeIndices ((encodeChunks _).map b64Char)).map decodeChunks = _
  rw [decodeIndices_map_b64Char _ (encodeChunks_lt _ hbytes)]
  simp [decodeChunks_encodeChunks _ hbytes]

/-- C5: the obfuscator token, base64url-decoded, is exactly the 16-byte IV
followed by the CTR-mode encryption of the UTF-8 plaintext under the fixed
key; distinct IVs produce distinct tokens for the same plaintext; and the
known inversion algorithm recovers the UTF-8 plaintext bytes from the token
alone.  The AES block transform `aes` is the external library's cipher,
quantified over all byte-valid block functions. -/
theorem c5_obfuscator_token (aes : List Nat → List Nat → List Nat)
    (hlen : ∀ blk, (aes rcloneFixedKey blk).length = 16)
    (hbyte : ∀ blk, ∀ b ∈ aes rcloneFixedKey blk, b < 256)
    (iv iv2 : List Nat) (password : String)
    (hivl : iv.length = 16) (hivb : ∀ b ∈ iv, b < 256)
    (hiv2l : iv2.length = 16) (hiv2b : ∀ b ∈ iv2, b < 256) :
    decodeToken (rclone_encrypt_password aes iv password) =
      some (iv ++ aesCtrEncrypt (aes rcloneFixedKey) iv (utf8Bytes password)) ∧
    (iv ≠ iv2 →
      rclone_encrypt_password aes iv password ≠
        rclone_encrypt_password aes iv2 password) ∧
    rclone_decrypt_password aes (rclone_encrypt_password aes iv password) =
      some (utf8Bytes password) := by
  have hdec1 := decodeToken_encrypt aes hbyte iv hivb password
  have hdec2 := decodeToken_encrypt aes hbyte iv2 hiv2b password
  refine ⟨hdec1, ?_, ?_⟩
  · intro hne heq
    have hx : some (iv ++ aesCtrEncrypt (aes rcloneFixedKey) iv (utf8Bytes password)) =
        some (iv2 ++ aesCtrEncrypt (aes rcloneFixedKey) iv2 (utf8Bytes password)) := by
      rw [← hdec1, heq, hdec2]
    have happ := Option.some.inj hx
    exact hne (List.append_inj happ (hivl.trans hiv2l.symm)).1
  · have hctlen : (aesCtrEncrypt (aes rcloneFixedKey) iv (utf8Bytes password)).length =
        (utf8Bytes password).length := aesCtrEncrypt_length _ _ _ hlen
    have hlen16 : ¬ (iv ++ aesCtrEncrypt (aes rcloneFixedKey) iv
        (utf8Bytes password)).length < 16 := by
      simp [List.length_append, hivl]
    have htake : (iv ++ aesCtrEncrypt (aes rcloneFixedKey) iv
        (utf8Bytes password)).take 16 = iv := by
      rw [← hivl]; exact List.take_left iv _
    have hdrop : (iv ++ aesCtrEncrypt (aes rcloneFixedKey) iv
        (utf8Bytes password)).drop 16 = aesCtrEncrypt (aes rcloneFixedKey) iv
        (utf8Bytes password) := by
      rw [← hivl]; exact List.drop_left iv _
    simp only [rclone_decrypt_password, hdec1, if_neg hlen16, htake, hdrop, hctlen]
    congr 1
    have hks : (ctrKeystream (aes rcloneFixedKey) (beVal iv)
        (((utf8Bytes password).length + 15) / 16)).length =
        16 * (((utf8Bytes password).length + 15) / 16) :=
      ctrBlocks_length _ _ hlen _ 0
    exact zipWith_xor_cancel _ _ (by rw [hks]; omega)

def wAes : List Nat → List Nat → List Nat := fun _ _ => List.range 16

theorem c5_obfuscator_token_witness :
    rclone_decrypt_password wAes (rclone_encrypt_password wAes (List.range 16) "pw") =
      some (utf8Bytes "pw") ∧
    rclone_encrypt_password wAes (List.range 16) "pw" ≠
      rclone_encrypt_password wAes (List.replicate 16 0) "pw" := by
  have h := c5_obfuscator_token wAes (fun _ => rfl)
    (fun blk b hb => by
      have hb16 : b < 16 := List.mem_range.mp hb
      omega)
    (List.range 16) (List.replicate 16 0) "pw" (by decide) (by decide)
    (by decide) (by decide)
  exact ⟨h.2.2, h.2.1 (by decide)⟩
